import Mathlib

/-!
Shallow embedding of the SENSAI backend (src/main.py, src/schemas.py):
the request-validation, persistence-mapping and quiz-aggregation layer.

Modelling conventions:
* Instants (`datetime`) are natural numbers; `datetime.min` is `0`, the least
  instant.  `datetime.now(timezone.utc)` is modelled by an explicit clock
  `Clock : Nat → Time` read at a per-system tick counter that advances by one
  on every `now()` call, so two consecutive `now()` calls read `clock t` and
  `clock (t+1)` and need not be equal.
* Pydantic request models are embedded as a `Raw…` structure (every field
  optional, `none` = absent from the JSON body) together with a validator
  returning `Except String` (`.error` = pydantic `ValidationError`, raised
  before the endpoint handler runs, so nothing is persisted).
* The Mongo collections are lists of stored documents; documents are
  schemaless in Mongo, so stored quiz fields are `Option`-valued and
  `doc.get(k, d)` is `Option.getD`.
* `database.py` (`db`, `create_document`, `get_documents`) is imported by
  `main.py` but absent from src; those primitives are modelled from the spec
  (see their doc comments).
* Python's `sorted` is a stable sort; any stable sort computes the same list,
  so it is embedded as `List.insertionSort` on the same key.  `sorted(...)[-1]`
  is `pyLast?` of the sorted list (the code only takes `[-1]` of a non-empty
  list).  `round(x, 2)` on the score mean is embedded exactly on `ℚ`
  (`round2`); no claim depends on float artifacts or the rounding tie-break,
  which the spec itself leaves unspecified.
-/

namespace Sensai

abbrev Time := Nat

abbrev Clock := Nat → Time

/-! ### Quiz data model (src/main.py lines 28-33, stored documents) -/

/-- Raw JSON body of `POST /api/quiz`; `none` means the field is absent. -/
structure RawQuiz where
  user_id : Option String
  score : Option Int
  total_questions : Option Int
  correct_answers : Option Int
  feedback : Option String
deriving DecidableEq

/-- `QuizIn` (src/main.py 28-33): the validated quiz payload. -/
structure QuizIn where
  user_id : String
  score : Int
  total_questions : Int
  correct_answers : Int
  feedback : Option String
deriving DecidableEq

/-- A document of the `quiz` collection.  Mongo is schemaless, so every field
is optional at read time; documents written by `create_quiz_result` have all
fields present. -/
structure StoredQuiz where
  user_id : String
  score : Option Int
  total_questions : Option Int
  correct_answers : Option Int
  feedback : Option String
  created_at : Option Time
  updated_at : Option Time
deriving DecidableEq

/-- Pydantic validation of `QuizIn` (src/main.py 28-33): required fields plus
`score ∈ [0,100]`, `total_questions ≥ 1`, `correct_answers ≥ 0`.
`user_id : str` has no constraint beyond presence. -/
def validateQuiz (r : RawQuiz) : Except String QuizIn :=
  match r.user_id with
  | none => .error "user_id: field required"
  | some uid =>
    match r.score with
    | none => .error "score: field required"
    | some sc =>
      match r.total_questions with
      | none => .error "total_questions: field required"
      | some tq =>
        match r.correct_answers with
        | none => .error "correct_answers: field required"
        | some ca =>
          if sc < 0 then .error "score: input should be at least 0"
          else if 100 < sc then .error "score: input should be at most 100"
          else if tq < 1 then .error "total_questions: input should be at least 1"
          else if ca < 0 then .error "correct_answers: input should be at least 0"
          else .ok ⟨uid, sc, tq, ca, r.feedback⟩

/-! ### Resume data model (src/main.py lines 36-67) -/

/-- Raw experience sub-record of the resume body. -/
structure RawExperience where
  company : Option String
  role : Option String
  start : Option String
  «end» : Option String
  description : Option String
deriving DecidableEq

/-- `ResumeExperience` (src/main.py 36-41). -/
structure ResumeExperience where
  company : String
  role : String
  start : String
  «end» : String
  description : Option String
deriving DecidableEq

/-- Raw education sub-record of the resume body. -/
structure RawEducation where
  school : Option String
  degree : Option String
  start : Option String
  «end» : Option String
  details : Option String
deriving DecidableEq

/-- `ResumeEducation` (src/main.py 44-49). -/
structure ResumeEducation where
  school : String
  degree : String
  start : String
  «end» : String
  details : Option String
deriving DecidableEq

/-- Raw project sub-record of the resume body. -/
structure RawProject where
  name : Option String
  link : Option String
  description : Option String
deriving DecidableEq

/-- `ResumeProject` (src/main.py 52-55). -/
structure ResumeProject where
  name : String
  link : Option String
  description : Option String
deriving DecidableEq

/-- Raw JSON body of `POST /api/resume`; `none` means the field is absent. -/
structure RawResume where
  user_id : Option String
  email : Option String
  linkedin : Option String
  twitter : Option String
  summary : Option String
  skills : Option (List String)
  experiences : Option (List RawExperience)
  education : Option (List RawEducation)
  projects : Option (List RawProject)
deriving DecidableEq

/-- `ResumeIn` (src/main.py 58-67): the validated resume payload, optional
scalars defaulted to `none` and list fields defaulted to `[]`. -/
structure ResumeIn where
  user_id : String
  email : Option String
  linkedin : Option String
  twitter : Option String
  summary : Option String
  skills : List String
  experiences : List ResumeExperience
  education : List ResumeEducation
  projects : List ResumeProject
deriving DecidableEq

/-- Validation of one experience entry: `company`, `role`, `start`, `end`
are required. -/
def validateExperience (r : RawExperience) : Except String ResumeExperience :=
  match r.company, r.role, r.start, r.«end» with
  | some c, some ro, some st, some en => .ok ⟨c, ro, st, en, r.description⟩
  | _, _, _, _ => .error "experiences: field required"

/-- Validation of one education entry: `school`, `degree`, `start`, `end`
are required. -/
def validateEducation (r : RawEducation) : Except String ResumeEducation :=
  match r.school, r.degree, r.start, r.«end» with
  | some sc, some dg, some st, some en => .ok ⟨sc, dg, st, en, r.details⟩
  | _, _, _, _ => .error "education: field required"

/-- Validation of one project entry: `name` is required. -/
def validateProject (r : RawProject) : Except String ResumeProject :=
  match r.name with
  | some n => .ok ⟨n, r.link, r.description⟩
  | none => .error "projects: field required"

/-- Pydantic validation of `ResumeIn` (src/main.py 58-67): `user_id : str` is
the only required top-level field (presence only, no non-empty check); list
fields default to `[]`; each sub-record is validated for its required
fields. -/
def validateResume (r : RawResume) : Except String ResumeIn :=
  match r.user_id with
  | none => .error "user_id: field required"
  | some uid =>
    match (r.experiences.getD []).mapM validateExperience with
    | .error e => .error e
    | .ok exps =>
      match (r.education.getD []).mapM validateEducation with
      | .error e => .error e
      | .ok edus =>
        match (r.projects.getD []).mapM validateProject with
        | .error e => .error e
        | .ok projs =>
          .ok ⟨uid, r.email, r.linkedin, r.twitter, r.summary,
               r.skills.getD [], exps, edus, projs⟩

/-- A document of the `resume` collection.  Only `upsert_resume` writes this
collection, and its `$set` lists every field below, so timestamps are always
present. -/
structure StoredResume where
  user_id : String
  email : Option String
  linkedin : Option String
  twitter : Option String
  summary : Option String
  skills : List String
  experiences : List ResumeExperience
  education : List ResumeEducation
  projects : List ResumeProject
  created_at : Time
  updated_at : Time
deriving DecidableEq

/-- Projection of a stored resume document back onto its payload fields
(everything except the system timestamps). -/
def resumeFields (d : StoredResume) : ResumeIn :=
  ⟨d.user_id, d.email, d.linkedin, d.twitter, d.summary,
   d.skills, d.experiences, d.education, d.projects⟩

/-! ### The store state -/

/-- The persistent state plus the clock tick: the `quiz` and `resume`
collections (lists in insertion order) and whether the Mongo handle `db` is
configured (`db is not None`). -/
structure Sys where
  quiz : List StoredQuiz
  resume : List StoredResume
  tick : Nat
  dbOk : Bool
deriving DecidableEq

/-- Modelled from the spec: `get_documents` lives in `database.py`, which is
absent from src.  Per §4.3 and the glossary it reads the documents of a
collection matching a filter criterion, here `{"user_id": uid}`, in store
(insertion) order, truncated to `limit` documents when a limit is given; it
performs no sorting itself (src/main.py 112 sorts the result afterwards). -/
def get_documents_quiz (s : Sys) (uid : String) (limit : Option Nat) : List StoredQuiz :=
  let ms := s.quiz.filter (fun d => d.user_id == uid)
  match limit with
  | none => ms
  | some n => ms.take n

/-- Modelled from the spec: `create_document` lives in `database.py`, which is
absent from src.  Per §4.2 it appends a new document to the collection (no
uniqueness constraint) and returns the store-assigned record id; it fails when
the store is not configured. -/
def create_document_quiz (s : Sys) (d : StoredQuiz) : Except String (Sys × Nat) :=
  if s.dbOk then .ok ({ s with quiz := s.quiz ++ [d] }, s.quiz.length)
  else .error "StorageUnavailable"

/-! ### Sorting by `created_at` -/

/-- The sort key of src/main.py 99 and 112: `x.get("created_at", datetime.min)`,
a record lacking `created_at` sorting as the least instant `0`. -/
def sortKey (d : StoredQuiz) : Time := d.created_at.getD 0

/-- Python's `sorted(items, key=lambda x: x.get("created_at", datetime.min))`:
a stable ascending sort, embedded as insertion sort (stable sorts of a list
under a given key all compute the same list). -/
def pySortByCreated (l : List StoredQuiz) : List StoredQuiz :=
  List.insertionSort (fun a b => sortKey a ≤ sortKey b) l

/-- Python's `sorted(items, key=..., reverse=True)`: the stable descending
sort on the same key (src/main.py 112). -/
def pySortByCreatedDesc (l : List StoredQuiz) : List StoredQuiz :=
  List.insertionSort (fun a b => sortKey b ≤ sortKey a) l

/-- Python's `lst[-1]`, total via `Option` (the code only applies it to a
non-empty list). -/
def pyLast? : List StoredQuiz → Option StoredQuiz
  | [] => none
  | [a] => some a
  | _ :: b :: l => pyLast? (b :: l)

/-- The record the spec's words select for `latest_score`: the record with the
maximum `created_at`, ties between equal maxima broken stably by the records'
original order (the later record wins). -/
def lastMaxBy : List StoredQuiz → Option StoredQuiz
  | [] => none
  | x :: xs =>
    match lastMaxBy xs with
    | none => some x
    | some m => if sortKey m < sortKey x then some x else some m

/-! ### Quiz endpoints (src/main.py 78-113) -/

/-- `round(x, 2)`: rounding to two decimal places, embedded exactly on `ℚ`. -/
def round2 (q : ℚ) : ℚ := (round (100 * q) : ℤ) / 100

/-- The response of `GET /api/quiz/stats` (src/main.py 90-105). -/
structure QuizStats where
  average_score : ℚ
  total_questions : Int
  latest_score : Int
  count : Nat
deriving DecidableEq

/-- `create_quiz_result` (src/main.py 78-84): validate the payload (a
`ValidationError` leaves the store untouched), stamp `created_at` and
`updated_at` with two consecutive `now()` readings, and append the document
to the `quiz` collection. -/
def create_quiz_result (clock : Clock) (raw : RawQuiz) (s : Sys) :
    Except String Nat × Sys :=
  match validateQuiz raw with
  | .error e => (.error e, s)
  | .ok q =>
    let doc : StoredQuiz :=
      { user_id := q.user_id, score := some q.score,
        total_questions := some q.total_questions,
        correct_answers := some q.correct_answers, feedback := q.feedback,
        created_at := some (clock s.tick),
        updated_at := some (clock (s.tick + 1)) }
    let s1 : Sys := { s with tick := s.tick + 2 }
    match create_document_quiz s1 doc with
    | .error e => (.error e, s1)
    | .ok (s2, i) => (.ok i, s2)

/-- `sorted(items, key=lambda x: x.get("created_at", datetime.min))[-1]
.get("score", 0)` (src/main.py 99 and 103); the `none` arm is unreachable in
the code, which only evaluates `[-1]` on a non-empty list. -/
def latestScoreOf (items : List StoredQuiz) : Int :=
  match pyLast? (pySortByCreated items) with
  | some it => it.score.getD 0
  | none => 0

/-- `get_quiz_stats` (src/main.py 87-105): zero-state on no records, else the
rounded mean of `score` (missing `score` reads as 0), the sum of
`total_questions` (missing reads as 0), the `score` of `sorted(items)[-1]`
by `created_at`, and the record count. -/
def get_quiz_stats (uid : String) (s : Sys) : QuizStats :=
  let items := get_documents_quiz s uid none
  if items.isEmpty then ⟨0, 0, 0, 0⟩
  else
    let scores : List Int := items.map (fun it => it.score.getD 0)
    ⟨round2 ((scores.sum : ℚ) / (scores.length : ℚ)),
     (items.map (fun it => it.total_questions.getD 0)).sum,
     latestScoreOf items,
     items.length⟩

/-- `get_recent_quizzes` (src/main.py 108-113): read up to `limit` documents
for the user (the limit is applied by the store read, src/main.py 110), then
sort that batch by `created_at` descending. -/
def get_recent_quizzes (uid : String) (limit : Nat) (s : Sys) : List StoredQuiz :=
  pySortByCreatedDesc (get_documents_quiz s uid (some limit))

/-- FastAPI's default for the `limit` query parameter is 5 (src/main.py 109). -/
def get_recent_quizzes_default (uid : String) (s : Sys) : List StoredQuiz :=
  get_recent_quizzes uid 5 s

/-- What the spec's words describe for `list_recent_quiz_results`: the `limit`
most recent of ALL the user's records, most recent first (sort everything,
then truncate).  Refinement target for the code's `get_recent_quizzes`. -/
def specMostRecent (uid : String) (limit : Nat) (s : Sys) : List StoredQuiz :=
  (pySortByCreatedDesc (s.quiz.filter (fun d => d.user_id == uid))).take limit

/-! ### Resume endpoints (src/main.py 117-136) -/

/-- The stored document an upsert write produces: Mongo's `$set` with
`payload_dict` lists every payload field plus both timestamps, so the write
determines every stored field (src/main.py 122-125).  `t_upd` is the first
`now()` reading (line 123) and `t_cre` the second (line 124: the `setdefault`
default is always evaluated, and always used, because the pydantic dump of
`ResumeIn` never contains `created_at`). -/
def mkStoredResume (p : ResumeIn) (t_upd t_cre : Time) : StoredResume :=
  ⟨p.user_id, p.email, p.linkedin, p.twitter, p.summary,
   p.skills, p.experiences, p.education, p.projects, t_cre, t_upd⟩

/-- Mongo `update_one({"user_id": u}, {"$set": payload_dict}, upsert=True)`:
replace the first document matching the filter (its every field is listed in
`$set`), or append a fresh document when none matches. -/
def upsertResumeList (p : ResumeIn) (t_upd t_cre : Time) :
    List StoredResume → List StoredResume
  | [] => [mkStoredResume p t_upd t_cre]
  | d :: ds =>
    if d.user_id == p.user_id then mkStoredResume p t_upd t_cre :: ds
    else d :: upsertResumeList p t_upd t_cre ds

/-- `upsert_resume` (src/main.py 117-126): validate the payload, fail with a
500 when `db` is not configured, then upsert by `user_id` with `updated_at`
from the first `now()` reading and `created_at` from the second. -/
def upsert_resume (clock : Clock) (raw : RawResume) (s : Sys) :
    Except String Unit × Sys :=
  match validateResume raw with
  | .error e => (.error e, s)
  | .ok p =>
    if s.dbOk then
      (.ok (),
       { s with
         resume := upsertResumeList p (clock s.tick) (clock (s.tick + 1)) s.resume,
         tick := s.tick + 2 })
    else (.error "Database not configured", s)

/-- `get_resume` (src/main.py 129-136): find by `user_id`, empty result when
absent (`_id` stripping is not modelled; documents here carry no `_id`). -/
def get_resume (uid : String) (s : Sys) : Except String (Option StoredResume) :=
  if s.dbOk then .ok (s.resume.find? (fun d => d.user_id == uid))
  else .error "Database not configured"

/-! ### Record transformations used to state the missing-field claims -/

/-- Replace a missing `created_at` by the least instant `0` (`datetime.min`). -/
def fillCreated (d : StoredQuiz) : StoredQuiz :=
  { d with created_at := some (d.created_at.getD 0) }

/-- Replace a missing `score` by `0`. -/
def fillScore (d : StoredQuiz) : StoredQuiz :=
  { d with score := some (d.score.getD 0) }

/-! ### Concrete inputs used by witnesses and counterexamples -/

/-- A clock that advances by one on every reading. -/
def idclock : Clock := fun i => i

/-- The initial system: empty collections, tick 0, store configured. -/
def sys0 : Sys := ⟨[], [], 0, true⟩

/-- First resume payload: `skills` given as `["python"]`. -/
def c1r1 : RawResume := ⟨some "u", none, none, none, none, some ["python"], none, none, none⟩

/-- Second resume payload for the same user: `skills` omitted. -/
def c1r2 : RawResume := ⟨some "u", none, none, none, none, none, none, none, none⟩

/-- The validated form of `c1r1`. -/
def c1p1 : ResumeIn := ⟨"u", none, none, none, none, ["python"], [], [], []⟩

/-- The validated form of `c1r2`. -/
def c1p2 : ResumeIn := ⟨"u", none, none, none, none, [], [], [], []⟩

/-- A quiz document for user `"u"` created at instant `i`. -/
def c2doc (i : Nat) : StoredQuiz := ⟨"u", some 10, some 5, some 3, none, some i, some i⟩

/-- Five quiz records for `"u"`, inserted oldest first. -/
def c2sys : Sys := ⟨[c2doc 1, c2doc 2, c2doc 3, c2doc 4, c2doc 5], [], 0, true⟩

/-- A valid quiz body. -/
def c8raw : RawQuiz := ⟨some "u", some 50, some 10, some 5, none⟩

/-- A quiz body whose `score` is out of range. -/
def c3bad : RawQuiz := ⟨some "u", some 150, some 10, some 5, none⟩

/-- A quiz body with an empty `user_id` and all other fields valid. -/
def c7quiz : RawQuiz := ⟨some "", some 50, some 10, some 5, none⟩

/-- A resume body with an empty `user_id`. -/
def c7resume : RawResume := ⟨some "", none, none, none, none, none, none, none, none⟩

/-- A quiz body with no `user_id` at all. -/
def c7quizNone : RawQuiz := ⟨none, some 50, some 10, some 5, none⟩

/-- A resume body with no `user_id` at all. -/
def c7resumeNone : RawResume := ⟨none, none, none, none, none, none, none, none, none⟩

/-- A quiz document for `"u"` with score `sc`, created at instant `i`. -/
def tiedoc (i : Nat) (sc : Int) : StoredQuiz := ⟨"u", some sc, some 5, some 3, none, some i, some i⟩

/-- Three records with a tie at the maximal `created_at` (instant 5). -/
def c6sys : Sys := ⟨[tiedoc 5 10, tiedoc 3 7, tiedoc 5 20], [], 0, true⟩

/-- A record that lacks `created_at` (and `updated_at`). -/
def c9doc1 : StoredQuiz := ⟨"u", some 10, some 5, some 3, none, none, none⟩

/-- A record with `created_at` present. -/
def c9doc2 : StoredQuiz := ⟨"u", some 30, some 5, some 3, none, some 7, some 7⟩

/-- A store holding a record without `created_at` next to a dated one. -/
def c9sys : Sys := ⟨[c9doc1, c9doc2], [], 0, true⟩

/-- A dated record with a score. -/
def c10doc1 : StoredQuiz := ⟨"u", some 40, some 5, some 2, none, some 1, some 1⟩

/-- The most recent record, lacking a `score`. -/
def c10doc2 : StoredQuiz := ⟨"u", none, some 5, some 0, none, some 9, some 9⟩

/-- A store whose most recent record has no `score`. -/
def c10sys : Sys := ⟨[c10doc1, c10doc2], [], 0, true⟩

/-! ### Lemmas about the stable sort and `lastMaxBy` -/

instance : IsTotal StoredQuiz (fun a b => sortKey a ≤ sortKey b) :=
  ⟨fun a b => Nat.le_total _ _⟩

instance : IsTrans StoredQuiz (fun a b => sortKey a ≤ sortKey b) :=
  ⟨fun _ _ _ => Nat.le_trans⟩

instance : IsTotal StoredQuiz (fun a b => sortKey b ≤ sortKey a) :=
  ⟨fun a b => Nat.le_total _ _⟩

instance : IsTrans StoredQuiz (fun a b => sortKey b ≤ sortKey a) :=
  ⟨fun _ _ _ h1 h2 => Nat.le_trans h2 h1⟩

theorem pyLast?_cons_of_ne_nil (a : StoredQuiz) {l : List StoredQuiz} (h : l ≠ []) :
    pyLast? (a :: l) = pyLast? l := by
  cases l with
  | nil => exact absurd rfl h
  | cons b t => rfl

theorem pyLast?_eq_none_iff (l : List StoredQuiz) : pyLast? l = none ↔ l = [] := by
  induction l with
  | nil => simp [pyLast?]
  | cons a t ih =>
    cases t with
    | nil => simp [pyLast?]
    | cons b t' => simpa [pyLast?] using ih

theorem sortKey_le_pyLast? :
    ∀ {l : List StoredQuiz} {b m : StoredQuiz},
      List.Sorted (fun a b => sortKey a ≤ sortKey b) (b :: l) →
      pyLast? (b :: l) = some m → sortKey b ≤ sortKey m := by
  intro l
  induction l with
  | nil =>
    intro b m _ hm
    cases hm
    exact Nat.le_refl _
  | cons c t ih =>
    intro b m hs hm
    have hbc : sortKey b ≤ sortKey c := List.rel_of_sorted_cons hs c (by simp)
    have hm' : pyLast? (c :: t) = some m := hm
    exact Nat.le_trans hbc (ih hs.of_cons hm')

theorem orderedInsert_ne_nil (r : StoredQuiz → StoredQuiz → Prop) [DecidableRel r]
    (x : StoredQuiz) (l : List StoredQuiz) : List.orderedInsert r x l ≠ [] := by
  cases l with
  | nil => simp
  | cons b t =>
    dsimp [List.orderedInsert]
    split <;> simp

theorem pyLast?_orderedInsert (x : StoredQuiz) :
    ∀ {l : List StoredQuiz},
      List.Sorted (fun a b => sortKey a ≤ sortKey b) l →
      pyLast? (List.orderedInsert (fun a b => sortKey a ≤ sortKey b) x l) =
        match pyLast? l with
        | none => some x
        | some m => if sortKey m < sortKey x then some x else some m := by
  intro l
  induction l with
  | nil => intro _; rfl
  | cons b t ih =>
    intro hs
    dsimp [List.orderedInsert]
    split
    case isTrue hxb =>
      obtain ⟨m, hm⟩ : ∃ m, pyLast? (b :: t) = some m := by
        cases h : pyLast? (b :: t) with
        | none => exact absurd ((pyLast?_eq_none_iff _).mp h) (by simp)
        | some m => exact ⟨m, rfl⟩
      have hle : sortKey x ≤ sortKey m := Nat.le_trans hxb (sortKey_le_pyLast? hs hm)
      rw [pyLast?_cons_of_ne_nil x (by simp), hm]
      simp [Nat.not_lt.mpr hle]
    case isFalse hxb =>
      have hbx : sortKey b < sortKey x := Nat.lt_of_not_le hxb
      cases t with
      | nil =>
        simp [pyLast?, hbx]
      | cons c t' =>
        rw [pyLast?_cons_of_ne_nil b (orderedInsert_ne_nil _ x (c :: t')),
          ih hs.of_cons, pyLast?_cons_of_ne_nil b (by simp)]

theorem pyLast?_pySortByCreated (l : List StoredQuiz) :
    pyLast? (pySortByCreated l) = lastMaxBy l := by
  induction l with
  | nil => rfl
  | cons x xs ih =>
    show pyLast? (List.orderedInsert _ x (List.insertionSort _ xs)) = _
    rw [pyLast?_orderedInsert x
      (List.sorted_insertionSort (fun a b => sortKey a ≤ sortKey b) xs)]
    show (match pyLast? (pySortByCreated xs) with
      | none => some x
      | some m => if sortKey m < sortKey x then some x else some m) = _
    rw [ih]
    rfl

theorem lastMaxBy_eq_none_iff (l : List StoredQuiz) : lastMaxBy l = none ↔ l = [] := by
  cases l with
  | nil => simp [lastMaxBy]
  | cons x xs =>
    simp only [lastMaxBy]
    cases h : lastMaxBy xs <;> simp [h]
    split <;> simp

theorem lastMaxBy_mem : ∀ {l : List StoredQuiz} {m : StoredQuiz},
    lastMaxBy l = some m → m ∈ l := by
  intro l
  induction l with
  | nil => intro m h; cases h
  | cons x xs ih =>
    intro m h
    simp only [lastMaxBy] at h
    split at h
    · cases h; simp
    · split at h
      · cases h; simp
      · cases h
        rename_i h' _
        exact List.mem_cons_of_mem x (ih h')

theorem lastMaxBy_key_le : ∀ {l : List StoredQuiz} {m : StoredQuiz},
    lastMaxBy l = some m → ∀ y ∈ l, sortKey y ≤ sortKey m := by
  intro l
  induction l with
  | nil => intro m h; cases h
  | cons x xs ih =>
    intro m h y hy
    simp only [lastMaxBy] at h
    split at h
    · cases h
      rename_i h'
      have : xs = [] := (lastMaxBy_eq_none_iff xs).mp h'
      subst this
      rcases List.mem_singleton.mp hy with rfl
      exact Nat.le_refl _
    · rename_i m' h'
      split at h
      · cases h
        rename_i hk
        rcases List.mem_cons.mp hy with rfl | hy'
        · exact Nat.le_refl _
        · exact Nat.le_trans (ih h' y hy') (Nat.le_of_lt hk)
      · cases h
        rename_i hk
        rcases List.mem_cons.mp hy with rfl | hy'
        · exact Nat.le_of_not_lt hk
        · exact ih h' y hy'

theorem lastMaxBy_filter_last : ∀ {l : List StoredQuiz} {m : StoredQuiz},
    lastMaxBy l = some m →
    pyLast? (l.filter (fun y => sortKey y == sortKey m)) = some m := by
  intro l
  induction l with
  | nil => intro m h; cases h
  | cons x xs ih =>
    intro m h
    simp only [lastMaxBy] at h
    split at h
    · cases h
      rename_i h'
      have : xs = [] := (lastMaxBy_eq_none_iff xs).mp h'
      subst this
      simp [pyLast?]
    · rename_i m' h'
      split at h
      · cases h
        rename_i hk
        have hnil : xs.filter (fun y => sortKey y == sortKey x) = [] := by
          rw [List.filter_eq_nil]
          intro y hy
          have h1 : sortKey y ≤ sortKey m' := lastMaxBy_key_le h' y hy
          have h2 : sortKey y ≠ sortKey x := Nat.ne_of_lt (Nat.lt_of_le_of_lt h1 hk)
          simpa using h2
        simp [List.filter_cons, hnil, pyLast?]
      · cases h
        have ihm := ih h'
        have hne : xs.filter (fun y => sortKey y == sortKey m) ≠ [] := by
          intro hfe
          rw [hfe] at ihm
          cases ihm
        rw [List.filter_cons]
        split
        · rw [pyLast?_cons_of_ne_nil x hne]
          exact ihm
        · exact ihm

theorem lastMaxBy_map (f : StoredQuiz → StoredQuiz)
    (hf : ∀ d, sortKey (f d) = sortKey d) :
    ∀ l : List StoredQuiz, lastMaxBy (l.map f) = (lastMaxBy l).map f := by
  intro l
  induction l with
  | nil => rfl
  | cons x xs ih =>
    simp only [List.map, lastMaxBy, ih]
    cases h : lastMaxBy xs with
    | none => rfl
    | some m =>
      simp only [Option.map, hf]
      split <;> rename_i hk <;> simp [hk]

/-! ### Lemmas about validation and the quiz endpoints -/

theorem validateQuiz_ok_bounds {raw : RawQuiz} {q : QuizIn}
    (h : validateQuiz raw = .ok q) :
    raw.user_id = some q.user_id
    ∧ raw.score = some q.score ∧ 0 ≤ q.score ∧ q.score ≤ 100
    ∧ raw.total_questions = some q.total_questions ∧ 1 ≤ q.total_questions
    ∧ raw.correct_answers = some q.correct_answers ∧ 0 ≤ q.correct_answers := by
  unfold validateQuiz at h
  split at h
  · cases h
  · rename_i uid hu
    split at h
    · cases h
    · rename_i sc hsc
      split at h
      · cases h
      · rename_i tq htq
        split at h
        · cases h
        · rename_i ca hca
          split_ifs at h with h1 h2 h3 h4 <;> try cases h
          exact ⟨hu, hsc, by dsimp only; omega, by dsimp only; omega, htq,
            by dsimp only; omega, hca, by dsimp only; omega⟩

theorem create_quiz_result_error {clock : Clock} {raw : RawQuiz} {s : Sys} {e : String}
    (h : validateQuiz raw = .error e) :
    create_quiz_result clock raw s = (.error e, s) := by
  simp [create_quiz_result, h]

theorem upsertResumeList_no_match (p : ResumeIn) (t t' : Time) :
    ∀ l : List StoredResume, (∀ d ∈ l, (d.user_id == p.user_id) = false) →
      upsertResumeList p t t' l = l ++ [mkStoredResume p t t'] := by
  intro l
  induction l with
  | nil => intro _; rfl
  | cons d ds ih =>
    intro h
    have hd := h d (by simp)
    simp only [upsertResumeList, hd, Bool.false_eq_true, if_false, List.cons_append,
      List.cons.injEq, true_and]
    exact ih (fun d' hd' => h d' (List.mem_cons_of_mem _ hd'))

theorem upsertResumeList_append_match (p : ResumeIn) (t t' : Time) (d0 : StoredResume)
    (hd : (d0.user_id == p.user_id) = true) :
    ∀ l : List StoredResume, (∀ d ∈ l, (d.user_id == p.user_id) = false) →
      upsertResumeList p t t' (l ++ [d0]) = l ++ [mkStoredResume p t t'] := by
  intro l
  induction l with
  | nil =>
    intro _
    simp [upsertResumeList, hd]
  | cons d ds ih =>
    intro h
    have hdd := h d (by simp)
    simp only [List.cons_append, upsertResumeList, hdd, Bool.false_eq_true, if_false,
      List.cons.injEq, true_and]
    exact ih (fun d' hd' => h d' (List.mem_cons_of_mem _ hd'))

theorem get_quiz_stats_map (f : StoredQuiz → StoredQuiz)
    (huid : ∀ d, (f d).user_id = d.user_id)
    (hkey : ∀ d, sortKey (f d) = sortKey d)
    (hsc : ∀ d, (f d).score.getD 0 = d.score.getD 0)
    (htq : ∀ d, (f d).total_questions.getD 0 = d.total_questions.getD 0)
    (uid : String) (s : Sys) :
    get_quiz_stats uid { s with quiz := s.quiz.map f } = get_quiz_stats uid s := by
  have hfil : (s.quiz.map f).filter (fun d => d.user_id == uid)
      = (s.quiz.filter (fun d => d.user_id == uid)).map f := by
    rw [List.filter_map]
    congr 1
    apply List.filter_congr
    intro d _
    simp [Function.comp, huid]
  have hie : ∀ l : List StoredQuiz, (l.map f).isEmpty = l.isEmpty := by
    intro l; cases l <;> rfl
  have hscores : ∀ l : List StoredQuiz,
      (l.map f).map (fun it => it.score.getD 0) = l.map (fun it => it.score.getD 0) := by
    intro l
    rw [List.map_map]
    apply List.map_congr_left
    intro d _
    simpa [Function.comp] using hsc d
  have htqs : ∀ l : List StoredQuiz,
      (l.map f).map (fun it => it.total_questions.getD 0)
        = l.map (fun it => it.total_questions.getD 0) := by
    intro l
    rw [List.map_map]
    apply List.map_congr_left
    intro d _
    simpa [Function.comp] using htq d
  have hlat : ∀ l : List StoredQuiz, latestScoreOf (l.map f) = latestScoreOf l := by
    intro l
    unfold latestScoreOf
    rw [pyLast?_pySortByCreated, pyLast?_pySortByCreated, lastMaxBy_map f hkey]
    cases h : lastMaxBy l with
    | none => rfl
    | some m => exact hsc m
  simp only [get_quiz_stats, get_documents_quiz]
  rw [hfil, hie, hscores, htqs, hlat]
  simp only [List.length_map]

theorem get_recent_quizzes_map (f : StoredQuiz → StoredQuiz)
    (huid : ∀ d, (f d).user_id = d.user_id)
    (hkey : ∀ d, sortKey (f d) = sortKey d)
    (uid : String) (limit : Nat) (s : Sys) :
    get_recent_quizzes uid limit { s with quiz := s.quiz.map f }
      = (get_recent_quizzes uid limit s).map f := by
  have hfil : (s.quiz.map f).filter (fun d => d.user_id == uid)
      = (s.quiz.filter (fun d => d.user_id == uid)).map f := by
    rw [List.filter_map]
    congr 1
    apply List.filter_congr
    intro d _
    simp [Function.comp, huid]
  simp only [get_recent_quizzes, get_documents_quiz, pySortByCreatedDesc]
  rw [hfil, ← List.map_take]
  refine (List.map_insertionSort _ _ f _ ?_).symm
  intro a _ b _
  simp [hkey]

theorem get_quiz_stats_latest_eq (uid : String) (s : Sys)
    (h : s.quiz.filter (fun d => d.user_id == uid) ≠ []) :
    (get_quiz_stats uid s).latest_score
      = latestScoreOf (s.quiz.filter (fun d => d.user_id == uid)) := by
  have hne : (s.quiz.filter (fun d => d.user_id == uid)).isEmpty = false := by
    cases hh : s.quiz.filter (fun d => d.user_id == uid) with
    | nil => exact absurd hh h
    | cons a t => rfl
  simp only [get_quiz_stats, get_documents_quiz, hne, Bool.false_eq_true, if_false]

theorem get_quiz_stats_count_eq (uid : String) (s : Sys) :
    (get_quiz_stats uid s).count = (s.quiz.filter (fun d => d.user_id == uid)).length := by
  cases hh : s.quiz.filter (fun d => d.user_id == uid) with
  | nil => simp [get_quiz_stats, get_documents_quiz, hh]
  | cons a t => simp [get_quiz_stats, get_documents_quiz, hh]

/-! ### The claims -/

/-- C1 (code bug): the spec says a resume's `created_at` is set once, at first
creation, and never overwritten.  The code intends this via
`payload_dict.setdefault("created_at", now)`, but the pydantic dump of
`ResumeIn` never contains `created_at`, so the default always fires and
`$set` then overwrites the stored `created_at` on every upsert.  Evaluated at
the failing input: two upserts for `"u"` under the clock `i ↦ i`; the first
write stores `created_at = 1`, and after the second write the stored record
has `created_at = 3`, not the preserved `1`. -/
theorem c1_resume_created_at_overwritten :
    (upsert_resume idclock c1r1 sys0).2.resume.map (fun d => d.created_at) = [1]
    ∧ (upsert_resume idclock c1r2 (upsert_resume idclock c1r1 sys0).2).2.resume.map
        (fun d => d.created_at) = [3] := ⟨rfl, rfl⟩

/-- C2 counterexample: `get_recent_quizzes` applies `limit` at the store read,
BEFORE sorting, so on five records created at instants 1..5 (inserted oldest
first) with `limit = 2` it returns the two OLDEST records (keys `[2, 1]`),
not the two most recent (`[5, 4]`) that the claim demands. -/
theorem c2_limit_applied_before_sort :
    get_recent_quizzes "u" 2 c2sys ≠ specMostRecent "u" 2 c2sys
    ∧ (get_recent_quizzes "u" 2 c2sys).map sortKey = [2, 1]
    ∧ (specMostRecent "u" 2 c2sys).map sortKey = [5, 4] := by
  exact ⟨by decide, by decide, by decide⟩

/-- C2 amended: `get_recent_quizzes` returns at most `limit` records (default
limit 5), namely the FIRST `limit` of the user's records in store (insertion)
order, sorted among themselves by `created_at` descending; only when the user
has at most `limit` records does this coincide with the `limit` most recent
of all the user's records. -/
theorem c2_get_recent_quizzes_amended (uid : String) (limit : Nat) (s : Sys) :
    (get_recent_quizzes uid limit s).length ≤ limit
    ∧ List.Sorted (fun a b => sortKey b ≤ sortKey a) (get_recent_quizzes uid limit s)
    ∧ (get_recent_quizzes uid limit s).Perm
        ((s.quiz.filter (fun d => d.user_id == uid)).take limit)
    ∧ get_recent_quizzes_default uid s = get_recent_quizzes uid 5 s
    ∧ ((s.quiz.filter (fun d => d.user_id == uid)).length ≤ limit →
        get_recent_quizzes uid limit s = specMostRecent uid limit s) := by
  refine ⟨?_, ?_, ?_, rfl, ?_⟩
  · show (List.insertionSort (fun a b => sortKey b ≤ sortKey a)
      ((s.quiz.filter (fun d => d.user_id == uid)).take limit)).length ≤ limit
    rw [List.length_insertionSort, List.length_take]
    omega
  · show List.Sorted (fun a b => sortKey b ≤ sortKey a)
      (List.insertionSort (fun a b => sortKey b ≤ sortKey a)
        ((s.quiz.filter (fun d => d.user_id == uid)).take limit))
    exact List.sorted_insertionSort _ _
  · show (List.insertionSort (fun a b => sortKey b ≤ sortKey a)
      ((s.quiz.filter (fun d => d.user_id == uid)).take limit)).Perm _
    exact List.perm_insertionSort _ _
  · intro hlen
    show List.insertionSort (fun a b => sortKey b ≤ sortKey a)
      ((s.quiz.filter (fun d => d.user_id == uid)).take limit) = specMostRecent uid limit s
    rw [List.take_of_length_le hlen, specMostRecent, pySortByCreatedDesc,
      List.take_of_length_le]
    rw [List.length_insertionSort]
    exact hlen

theorem c2_get_recent_quizzes_amended_witness :
    (get_recent_quizzes "u" 5 c2sys).length ≤ 5
    ∧ List.Sorted (fun a b => sortKey b ≤ sortKey a) (get_recent_quizzes "u" 5 c2sys)
    ∧ (get_recent_quizzes "u" 5 c2sys).Perm
        ((c2sys.quiz.filter (fun d => d.user_id == "u")).take 5)
    ∧ get_recent_quizzes_default "u" c2sys = get_recent_quizzes "u" 5 c2sys
    ∧ get_recent_quizzes "u" 5 c2sys = specMostRecent "u" 5 c2sys := by
  obtain ⟨a, b, c, d, e⟩ := c2_get_recent_quizzes_amended "u" 5 c2sys
  exact ⟨a, b, c, d, e (by decide)⟩

/-- C3: an out-of-range `score` (outside [0,100]), `total_questions < 1` or
`correct_answers < 0` makes the submission fail with a `ValidationError` and
leaves the store untouched; any payload whose required fields are present and
within these bounds validates successfully. -/
theorem c3_quiz_validation_bounds (clock : Clock) (raw : RawQuiz) (s : Sys) :
    (((∃ sc, raw.score = some sc ∧ (sc < 0 ∨ 100 < sc))
      ∨ (∃ tq, raw.total_questions = some tq ∧ tq < 1)
      ∨ (∃ ca, raw.correct_answers = some ca ∧ ca < 0)) →
      ∃ e, create_quiz_result clock raw s = (.error e, s))
    ∧ (∀ uid sc tq ca fb, raw = ⟨some uid, some sc, some tq, some ca, fb⟩ →
        0 ≤ sc → sc ≤ 100 → 1 ≤ tq → 0 ≤ ca →
        validateQuiz raw = .ok ⟨uid, sc, tq, ca, fb⟩) := by
  constructor
  · intro hbad
    cases hv : validateQuiz raw with
    | error e => exact ⟨e, create_quiz_result_error hv⟩
    | ok q =>
      exfalso
      obtain ⟨-, hsc, h0, h100, htq, h1, hca, h0'⟩ := validateQuiz_ok_bounds hv
      rcases hbad with ⟨sc, hsceq, hout⟩ | ⟨tq, htqeq, hout⟩ | ⟨ca, hcaeq, hout⟩
      · rw [hsceq] at hsc
        have := Option.some.inj hsc
        rcases hout with hh | hh <;> omega
      · rw [htqeq] at htq
        have := Option.some.inj htq
        omega
      · rw [hcaeq] at hca
        have := Option.some.inj hca
        omega
  · intro uid sc tq ca fb hraw h0 h100 h1 h0'
    subst hraw
    unfold validateQuiz
    dsimp only
    rw [if_neg (by omega), if_neg (by omega), if_neg (by omega), if_neg (by omega)]

theorem c3_quiz_validation_bounds_witness :
    (∃ e, create_quiz_result idclock c3bad sys0 = (.error e, sys0))
    ∧ validateQuiz c8raw = .ok ⟨"u", 50, 10, 5, none⟩ :=
  ⟨(c3_quiz_validation_bounds idclock c3bad sys0).1 (Or.inl ⟨150, rfl, Or.inr (by decide)⟩),
   (c3_quiz_validation_bounds idclock c8raw sys0).2 "u" 50 10 5 none rfl
     (by decide) (by decide) (by decide) (by decide)⟩

/-- C4: two upserts for the same `user_id` (starting from a store with no
record for that user) leave exactly one stored record, and its payload fields
are exactly the second validated payload — a field omitted in the second body
holds its declared default, not the first body's value. -/
theorem c4_resume_upsert_full_replace (clock : Clock) (r1 r2 : RawResume)
    (p1 p2 : ResumeIn) (s : Sys)
    (h1 : validateResume r1 = .ok p1) (h2 : validateResume r2 = .ok p2)
    (hu : p2.user_id = p1.user_id) (hdb : s.dbOk = true)
    (h0 : s.resume.filter (fun d => d.user_id == p1.user_id) = []) :
    ((upsert_resume clock r2 (upsert_resume clock r1 s).2).2.resume.filter
        (fun d => d.user_id == p1.user_id)).length = 1
    ∧ ∀ d ∈ (upsert_resume clock r2 (upsert_resume clock r1 s).2).2.resume.filter
        (fun d => d.user_id == p1.user_id), resumeFields d = p2 := by
  have h0' : ∀ d ∈ s.resume, (d.user_id == p1.user_id) = false := by
    intro d hd
    have := List.filter_eq_nil.mp h0 d hd
    simpa using this
  have h0'' : ∀ d ∈ s.resume, (d.user_id == p2.user_id) = false := by
    rw [hu]
    exact h0'
  have hs1 : (upsert_resume clock r1 s).2
      = { s with
          resume := s.resume ++ [mkStoredResume p1 (clock s.tick) (clock (s.tick + 1))],
          tick := s.tick + 2 } := by
    simp only [upsert_resume, h1, hdb, if_true]
    rw [upsertResumeList_no_match p1 _ _ s.resume h0']
  have hmk : ((mkStoredResume p1 (clock s.tick) (clock (s.tick + 1))).user_id
      == p2.user_id) = true := by
    show (p1.user_id == p2.user_id) = true
    rw [hu]
    exact beq_self_eq_true _
  have hs2 : (upsert_resume clock r2 (upsert_resume clock r1 s).2).2
      = { s with
          resume := s.resume ++ [mkStoredResume p2 (clock (s.tick + 2)) (clock (s.tick + 3))],
          tick := s.tick + 4 } := by
    rw [hs1]
    simp only [upsert_resume, h2, hdb, if_true]
    rw [upsertResumeList_append_match p2 _ _ _ hmk s.resume h0'']
  have hmk2 : ((mkStoredResume p2 (clock (s.tick + 2)) (clock (s.tick + 3))).user_id
      == p1.user_id) = true := by
    show (p2.user_id == p1.user_id) = true
    rw [hu]
    exact beq_self_eq_true _
  rw [hs2]
  constructor
  · show ((s.resume ++ [_]).filter _).length = 1
    rw [List.filter_append, h0, List.nil_append, List.filter_cons]
    rw [hmk2]
    simp
  · intro d hd
    rw [show ({ s with
        resume := s.resume ++ [mkStoredResume p2 (clock (s.tick + 2)) (clock (s.tick + 3))],
        tick := s.tick + 4 } : Sys).resume
      = s.resume ++ [mkStoredResume p2 (clock (s.tick + 2)) (clock (s.tick + 3))] from rfl,
      List.filter_append, h0, List.nil_append, List.filter_cons, hmk2] at hd
    simp only [if_true, List.filter_nil] at hd
    rcases List.mem_singleton.mp hd with rfl
    rfl

theorem c4_resume_upsert_full_replace_witness :
    validateResume c1r1 = .ok c1p1
    ∧ validateResume c1r2 = .ok c1p2
    ∧ (((upsert_resume idclock c1r2 (upsert_resume idclock c1r1 sys0).2).2.resume.filter
          (fun d => d.user_id == c1p1.user_id)).length = 1
        ∧ ∀ d ∈ (upsert_resume idclock c1r2 (upsert_resume idclock c1r1 sys0).2).2.resume.filter
            (fun d => d.user_id == c1p1.user_id), resumeFields d = c1p2)
    ∧ (upsert_resume idclock c1r2 (upsert_resume idclock c1r1 sys0).2).2.resume.map
        (fun d => d.skills) = [[]] :=
  ⟨rfl, rfl,
   c4_resume_upsert_full_replace idclock c1r1 c1r2 c1p1 c1p2 sys0 rfl rfl rfl rfl rfl,
   rfl⟩

/-- C5: a user with zero stored quiz records gets the exact zero-state
`{average_score: 0, total_questions: 0, latest_score: 0, count: 0}` as a
success value. -/
theorem c5_quiz_stats_empty (uid : String) (s : Sys)
    (h : s.quiz.filter (fun d => d.user_id == uid) = []) :
    get_quiz_stats uid s = ⟨0, 0, 0, 0⟩ := by
  simp [get_quiz_stats, get_documents_quiz, h]

theorem c5_quiz_stats_empty_witness : get_quiz_stats "u" sys0 = ⟨0, 0, 0, 0⟩ :=
  c5_quiz_stats_empty "u" sys0 rfl

/-- C6: for a user with at least one record, `latest_score` is the `score` of
the record with the maximum `created_at`; a tie between equal maxima is broken
stably by the records' original order — the winner `m` is a record with
maximal key that is the LAST such record in original order (it is the last
element of the sublist of records sharing the maximal key). -/
theorem c6_latest_score_stable_max (uid : String) (s : Sys)
    (h : s.quiz.filter (fun d => d.user_id == uid) ≠ []) :
    ∃ m : StoredQuiz,
      lastMaxBy (s.quiz.filter (fun d => d.user_id == uid)) = some m
      ∧ m ∈ s.quiz.filter (fun d => d.user_id == uid)
      ∧ (∀ y ∈ s.quiz.filter (fun d => d.user_id == uid), sortKey y ≤ sortKey m)
      ∧ pyLast? ((s.quiz.filter (fun d => d.user_id == uid)).filter
          (fun y => sortKey y == sortKey m)) = some m
      ∧ (get_quiz_stats uid s).latest_score = m.score.getD 0 := by
  obtain ⟨m, hm⟩ : ∃ m, lastMaxBy (s.quiz.filter (fun d => d.user_id == uid)) = some m := by
    cases h' : lastMaxBy (s.quiz.filter (fun d => d.user_id == uid)) with
    | none => exact absurd ((lastMaxBy_eq_none_iff _).mp h') h
    | some m => exact ⟨m, rfl⟩
  refine ⟨m, hm, lastMaxBy_mem hm, lastMaxBy_key_le hm, lastMaxBy_filter_last hm, ?_⟩
  rw [get_quiz_stats_latest_eq uid s h]
  unfold latestScoreOf
  rw [pyLast?_pySortByCreated, hm]

theorem c6_latest_score_stable_max_witness :
    ∃ m : StoredQuiz,
      lastMaxBy (c6sys.quiz.filter (fun d => d.user_id == "u")) = some m
      ∧ m ∈ c6sys.quiz.filter (fun d => d.user_id == "u")
      ∧ (∀ y ∈ c6sys.quiz.filter (fun d => d.user_id == "u"), sortKey y ≤ sortKey m)
      ∧ pyLast? ((c6sys.quiz.filter (fun d => d.user_id == "u")).filter
          (fun y => sortKey y == sortKey m)) = some m
      ∧ (get_quiz_stats "u" c6sys).latest_score = m.score.getD 0 :=
  c6_latest_score_stable_max "u" c6sys (by decide)

/-- C7 counterexample: the claim says an empty `user_id` fails validation, but
`user_id : str` carries no non-empty constraint, so the empty string passes
validation for both quiz and resume bodies, and the quiz record is even
persisted. -/
theorem c7_empty_user_id_accepted :
    validateQuiz c7quiz = .ok ⟨"", 50, 10, 5, none⟩
    ∧ validateResume c7resume = .ok ⟨"", none, none, none, none, [], [], [], []⟩
    ∧ (create_quiz_result idclock c7quiz sys0).2.quiz =
        [⟨"", some 50, some 10, some 5, none, some 0, some 1⟩] :=
  ⟨rfl, rfl, rfl⟩

/-- C7 amended: `user_id` is required — a body with no `user_id` fails with a
`ValidationError` for both quiz and resume submissions — but no non-emptiness
is enforced: the empty string is accepted (see the counterexample). -/
theorem c7_user_id_required (q : RawQuiz) (r : RawResume)
    (hq : q.user_id = none) (hr : r.user_id = none) :
    validateQuiz q = .error "user_id: field required"
    ∧ validateResume r = .error "user_id: field required" := by
  constructor
  · unfold validateQuiz
    rw [hq]
  · unfold validateResume
    rw [hr]

theorem c7_user_id_required_witness :
    validateQuiz c7quizNone = .error "user_id: field required"
    ∧ validateResume c7resumeNone = .error "user_id: field required" :=
  c7_user_id_required c7quizNone c7resumeNone rfl rfl

/-- C8 counterexample: the claim says `created_at = updated_at` on every quiz
insert, but the code takes two separate `now()` readings; under a clock that
advances between the readings the stored record has `created_at = 0` and
`updated_at = 1`. -/
theorem c8_quiz_timestamps_differ :
    (create_quiz_result idclock c8raw sys0).2.quiz =
      [⟨"u", some 50, some 10, some 5, none, some 0, some 1⟩]
    ∧ ((create_quiz_result idclock c8raw sys0).2.quiz.map
        (fun d => d.created_at == d.updated_at)) = [false] :=
  ⟨rfl, rfl⟩

/-- C8 amended: both timestamps are set by the system at insert time, from the
two consecutive clock readings of the insert; under a monotone clock
`created_at ≤ updated_at`, with equality exactly when the clock does not
advance between the two readings. -/
theorem c8_quiz_insert_timestamps (clock : Clock) (raw : RawQuiz) (q : QuizIn) (s : Sys)
    (hmono : ∀ i j : Nat, i ≤ j → clock i ≤ clock j)
    (hv : validateQuiz raw = .ok q) (hdb : s.dbOk = true) :
    ∃ d : StoredQuiz,
      (create_quiz_result clock raw s).2.quiz = s.quiz ++ [d]
      ∧ d.created_at = some (clock s.tick)
      ∧ d.updated_at = some (clock (s.tick + 1))
      ∧ d.created_at.getD 0 ≤ d.updated_at.getD 0 := by
  refine ⟨⟨q.user_id, some q.score, some q.total_questions, some q.correct_answers,
    q.feedback, some (clock s.tick), some (clock (s.tick + 1))⟩, ?_, rfl, rfl, ?_⟩
  · simp [create_quiz_result, hv, create_document_quiz, hdb]
  · simpa using hmono s.tick (s.tick + 1) (Nat.le_succ _)

theorem c8_quiz_insert_timestamps_witness :
    ∃ d : StoredQuiz,
      (create_quiz_result (fun _ => 7) c8raw sys0).2.quiz = sys0.quiz ++ [d]
      ∧ d.created_at = some 7
      ∧ d.updated_at = some 7
      ∧ d.created_at.getD 0 ≤ d.updated_at.getD 0 :=
  c8_quiz_insert_timestamps (fun _ => 7) c8raw ⟨"u", 50, 10, 5, none⟩ sys0
    (fun _ _ _ => Nat.le_refl 7) rfl rfl

/-- C9: records lacking `created_at` never break the aggregations — both
reads are total and treat such a record exactly as if it carried the least
possible instant: filling missing `created_at` with the least instant changes
no output of `get_quiz_stats`, maps `get_recent_quizzes` output pointwise,
and a record without `created_at` sorts below every record. -/
theorem c9_missing_created_at_sorts_least (uid : String) (limit : Nat) (s : Sys) :
    get_quiz_stats uid { s with quiz := s.quiz.map fillCreated } = get_quiz_stats uid s
    ∧ get_recent_quizzes uid limit { s with quiz := s.quiz.map fillCreated }
        = (get_recent_quizzes uid limit s).map fillCreated
    ∧ (∀ d : StoredQuiz, d.created_at = none → ∀ e : StoredQuiz, sortKey d ≤ sortKey e) := by
  refine ⟨?_, ?_, ?_⟩
  · exact get_quiz_stats_map fillCreated (fun d => rfl) (fun d => rfl) (fun d => rfl)
      (fun d => rfl) uid s
  · exact get_recent_quizzes_map fillCreated (fun d => rfl) (fun d => rfl) uid limit s
  · intro d hd e
    show sortKey d ≤ sortKey e
    rw [sortKey, hd]
    exact Nat.zero_le _

theorem c9_missing_created_at_sorts_least_witness :
    get_quiz_stats "u" { c9sys with quiz := c9sys.quiz.map fillCreated } = get_quiz_stats "u" c9sys
    ∧ get_recent_quizzes "u" 5 { c9sys with quiz := c9sys.quiz.map fillCreated }
        = (get_recent_quizzes "u" 5 c9sys).map fillCreated
    ∧ sortKey c9doc1 ≤ sortKey c9doc2 := by
  obtain ⟨a, b, c⟩ := c9_missing_created_at_sorts_least "u" 5 c9sys
  exact ⟨a, b, c c9doc1 rfl c9doc2⟩

/-- C10: a stored record lacking `score` counts as score 0 everywhere in
`get_quiz_stats`: filling missing scores with 0 changes nothing (so it
contributes 0 to the mean), `count` still counts every record, and when the
most recent record lacks `score` then `latest_score = 0`. -/
theorem c10_missing_score_as_zero (uid : String) (s : Sys) :
    get_quiz_stats uid { s with quiz := s.quiz.map fillScore } = get_quiz_stats uid s
    ∧ (get_quiz_stats uid s).count = (s.quiz.filter (fun d => d.user_id == uid)).length
    ∧ (∀ m : StoredQuiz, lastMaxBy (s.quiz.filter (fun d => d.user_id == uid)) = some m →
        m.score = none → (get_quiz_stats uid s).latest_score = 0) := by
  refine ⟨?_, ?_, ?_⟩
  · exact get_quiz_stats_map fillScore (fun d => rfl) (fun d => rfl) (fun d => rfl)
      (fun d => rfl) uid s
  · exact get_quiz_stats_count_eq uid s
  · intro m hm hscore
    have hne : s.quiz.filter (fun d => d.user_id == uid) ≠ [] := by
      intro heq
      rw [heq] at hm
      cases hm
    rw [get_quiz_stats_latest_eq uid s hne]
    unfold latestScoreOf
    rw [pyLast?_pySortByCreated, hm]
    show m.score.getD 0 = 0
    rw [hscore]
    rfl

theorem c10_missing_score_as_zero_witness :
    get_quiz_stats "u" { c10sys with quiz := c10sys.quiz.map fillScore } = get_quiz_stats "u" c10sys
    ∧ (get_quiz_stats "u" c10sys).count = (c10sys.quiz.filter (fun d => d.user_id == "u")).length
    ∧ (get_quiz_stats "u" c10sys).latest_score = 0 := by
  obtain ⟨a, b, c⟩ := c10_missing_score_as_zero "u" c10sys
  exact ⟨a, b, c c10doc2 (by decide) rfl⟩

end Sensai
